import Mathlib

/-!
Verification of the startups-tracker scraping pipeline.

This file gives a shallow embedding, in Lean, of the scraping core of the
startups-tracker repository and proves properties of it:

- `RateLimiter` (src/lib/utils/rate-limiter.ts): a FIFO queue of async tasks
  drained by a single worker which spaces consecutive task starts by at least
  `1000 / requestsPerSecond` milliseconds.
- `fetchWithRetry`, the scrapers `scrapeA16z` / `scrapeYCombinator`, the
  aggregator `scrapeStartups` (src/lib/scraper.ts), and the ingestion
  endpoint `GET /api/scrape` (src/app/api/scrape/route.ts).

JavaScript is single threaded, so the async code is modelled functionally:
awaited I/O results are supplied by explicit oracles (functions from call
index to outcome), and wall-clock time is threaded explicitly in
milliseconds as a natural number.
-/

namespace StartupsTracker

/-! ### Rate limiter (src/lib/utils/rate-limiter.ts)

A task submitted to the limiter is modelled by its identity, the time its
body takes to settle once started, and the outcome (`resolve`d value or
`reject`ed error) it delivers to its own caller.  The `add` method wraps the
submitted function in a try/catch that forwards the result or the error to
the promise returned to that caller, so a queue entry itself never throws;
the `outcome` field records what the wrapper forwards. -/

structure RLTask where
  id : Nat
  dur : Nat
  outcome : Except String Nat
deriving Repr

/-- One executed task as observed from outside: its identity, the timestamp
at which it began executing (`lastRequestTime = Date.now()` in the source),
and the outcome delivered to its caller. -/
structure RLRun where
  id : Nat
  start : Nat
  outcome : Except String Nat
deriving Repr

/-- The constructor computes `this.delayMs = 1000 / requestsPerSecond`. -/
def RateLimiter.delayMsOf (requestsPerSecond : Nat) : Nat :=
  1000 / requestsPerSecond

/-- The drain computes `timeToWait = Math.max(0, lastRequestTime + delayMs - now)`;
natural-number subtraction already truncates at zero. -/
def timeToWait (lastRequestTime delayMs now : Nat) : Nat :=
  lastRequestTime + delayMs - now

/-- The timestamp at which the next dequeued task starts: the drain suspends
for `timeToWait` and then records `lastRequestTime = Date.now()`. -/
def nextStart (delayMs lastRequestTime now : Nat) : Nat :=
  now + timeToWait lastRequestTime delayMs now

/-- Each `add` call pushes the wrapped task at the back of `this.queue`. -/
def RateLimiter.push (queue : List RLTask) (t : RLTask) : List RLTask :=
  queue ++ [t]

/-- The queue contents after a sequence of `add` calls in submission order. -/
def RateLimiter.submitAll (ts : List RLTask) : List RLTask :=
  ts.foldl RateLimiter.push []

/-- The drain loop `process`: if the queue is empty stop; otherwise wait
`timeToWait`, shift the front task, record its start time, await it, recurse.
Returns the executed tasks with their start times in execution order. -/
def RateLimiter.process (delayMs : Nat) :
    List RLTask → Nat → Nat → List RLRun
  | [], _, _ => []
  | t :: rest, lastRequestTime, now =>
    let start := nextStart delayMs lastRequestTime now
    ⟨t.id, start, t.outcome⟩ :: RateLimiter.process delayMs rest start (start + t.dur)

theorem RateLimiter.submitAll_eq_aux (ts : List RLTask) :
    ∀ acc : List RLTask, ts.foldl RateLimiter.push acc = acc ++ ts := by
  induction ts with
  | nil => intro acc; simp
  | cons t rest ih =>
    intro acc
    simp [List.foldl_cons, RateLimiter.push, ih]

theorem RateLimiter.submitAll_eq (ts : List RLTask) :
    RateLimiter.submitAll ts = ts := by
  simpa using RateLimiter.submitAll_eq_aux ts []

theorem RateLimiter.lastStart_add_delay_le_nextStart
    (delayMs lastRequestTime now : Nat) :
    lastRequestTime + delayMs ≤ nextStart delayMs lastRequestTime now := by
  simp only [nextStart, timeToWait]
  omega

theorem RateLimiter.process_ids (delayMs : Nat) :
    ∀ (ts : List RLTask) (last now : Nat),
      (RateLimiter.process delayMs ts last now).map RLRun.id = ts.map RLTask.id
  | [], _, _ => rfl
  | t :: rest, last, now => by
    simp only [RateLimiter.process, List.map_cons, List.map]
    exact congrArg _ (RateLimiter.process_ids delayMs rest _ _)

theorem RateLimiter.process_spacing (delayMs : Nat) :
    ∀ (ts : List RLTask) (last now : Nat),
      List.Chain' (fun a b : RLRun => a.start + delayMs ≤ b.start)
        (RateLimiter.process delayMs ts last now)
  | [], _, _ => List.chain'_nil
  | [t], last, now => List.chain'_singleton _
  | t :: u :: rest, last, now => by
    simp only [RateLimiter.process]
    refine List.Chain'.cons ?_ ?_
    · exact RateLimiter.lastStart_add_delay_le_nextStart delayMs _ _
    · exact RateLimiter.process_spacing delayMs (u :: rest) _ _

theorem RateLimiter.process_outcomes (delayMs : Nat) :
    ∀ (ts : List RLTask) (last now : Nat),
      (RateLimiter.process delayMs ts last now).map
          (fun r => (r.id, r.outcome)) =
        ts.map (fun t => (t.id, t.outcome))
  | [], _, _ => rfl
  | t :: rest, last, now => by
    simp only [RateLimiter.process, List.map_cons]
    exact congrArg _ (RateLimiter.process_outcomes delayMs rest _ _)

/-- C1: For every sequence of tasks submitted to the Rate Limiter via `add`,
the tasks begin executing strictly in FIFO submission order, and any two
consecutive task start times differ by at least the configured interval of
`1000 / requestsPerSecond` milliseconds. -/
theorem c1_rate_limiter_fifo_and_min_gap
    (requestsPerSecond : Nat) (ts : List RLTask) (last now : Nat) :
    (RateLimiter.process (RateLimiter.delayMsOf requestsPerSecond)
        (RateLimiter.submitAll ts) last now).map RLRun.id = ts.map RLTask.id ∧
    List.Chain'
      (fun a b : RLRun =>
        a.start + RateLimiter.delayMsOf requestsPerSecond ≤ b.start)
      (RateLimiter.process (RateLimiter.delayMsOf requestsPerSecond)
        (RateLimiter.submitAll ts) last now) := by
  rw [RateLimiter.submitAll_eq]
  exact ⟨RateLimiter.process_ids _ ts last now,
    RateLimiter.process_spacing _ ts last now⟩

/-- C9: Every task submitted to the Rate Limiter executes and delivers its
own outcome (resolution or rejection) to its own caller; a rejecting task
does not abort the queue, so tasks submitted after a failing task still
execute and deliver their outcomes. -/
theorem c9_rate_limiter_outcomes_per_task
    (delayMs : Nat) (ts : List RLTask) (last now : Nat) :
    (RateLimiter.process delayMs (RateLimiter.submitAll ts) last now).map
        (fun r => (r.id, r.outcome)) =
      ts.map (fun t => (t.id, t.outcome)) := by
  rw [RateLimiter.submitAll_eq]
  exact RateLimiter.process_outcomes delayMs ts last now

/-! ### Retry wrapper (fetchWithRetry in src/lib/scraper.ts)

The outcome of each underlying `rateLimiter.add(() => axios.get(url, options))`
call is supplied by an oracle `attempt` from the attempt index to a result or
a thrown error.  Errors carry whether they are axios errors and, if so, the
optional HTTP status of `error.response`. -/

inductive FetchError
  | axiosHttp (status : Nat)
  | axiosNoResponse
  | other (msg : String)
deriving Repr, DecidableEq

/-- An `AxiosResponse`, abstracted to its payload. -/
def Response := String
deriving Repr, DecidableEq

/-- The retry guard of the catch block:
`axios.isAxiosError(error) && error.response?.status === 429`. -/
def isRateLimit : FetchError → Bool
  | .axiosHttp 429 => true
  | _ => false

def MAX_RETRIES : Nat := 3

/-- The retry wrapper: try the call; on a thrown error, if attempts remain
and the error is an axios HTTP 429, sleep 2000 ms and recurse with the budget
decremented; otherwise rethrow.  Returns the final outcome together with the
total backoff milliseconds slept by the `delay(2000)` calls. -/
def fetchWithRetry (attempt : Nat → Except FetchError Response) :
    Nat → Nat → Except FetchError Response × Nat
  | k, 0 =>
    match attempt k with
    | .ok r => (.ok r, 0)
    | .error e => (.error e, 0)
  | k, retries + 1 =>
    match attempt k with
    | .ok r => (.ok r, 0)
    | .error e =>
      if isRateLimit e then
        let p := fetchWithRetry attempt (k + 1) retries
        (p.1, 2000 + p.2)
      else (.error e, 0)

theorem fetchWithRetry_all429 (attempt : Nat → Except FetchError Response) :
    ∀ (retries k : Nat),
      (∀ i, i ≤ retries →
        ∃ ei, attempt (k + i) = .error ei ∧ isRateLimit ei = true) →
      ∃ elast, attempt (k + retries) = .error elast ∧
        fetchWithRetry attempt k retries = (.error elast, 2000 * retries) := by
  intro retries
  induction retries with
  | zero =>
    intro k h
    obtain ⟨e0, he0, h429⟩ := h 0 (Nat.le_refl 0)
    rw [Nat.add_zero] at he0
    exact ⟨e0, he0, by simp [fetchWithRetry, he0]⟩
  | succ r ih =>
    intro k h
    obtain ⟨e0, he0, h429⟩ := h 0 (Nat.zero_le _)
    rw [Nat.add_zero] at he0
    obtain ⟨el, hel, hres⟩ := ih (k + 1) (fun i hi => by
      have h2 := h (i + 1) (by omega)
      have hk : k + (i + 1) = k + 1 + i := by omega
      rwa [hk] at h2)
    refine ⟨el, ?_, ?_⟩
    · have hk : k + (r + 1) = k + 1 + r := by omega
      rwa [hk]
    · simp [fetchWithRetry, he0, h429, hres, Nat.mul_succ]
      omega

/-- C3: on a thrown HTTP 429 with budget remaining, `fetchWithRetry` re-issues
the call after a fixed 2000 ms backoff with the budget decremented by one;
a failure that is not an HTTP 429 axios error propagates immediately without
retry and without backoff; and when every attempt up to the exhausted budget
throws HTTP 429, the error of the final attempt propagates to the caller
unchanged, after 2000 ms of backoff per retry. -/
theorem c3_fetch_with_retry_behaviour
    (attempt : Nat → Except FetchError Response) (k retries : Nat)
    (e : FetchError) :
    (attempt k = .error e → isRateLimit e = true →
      fetchWithRetry attempt k (retries + 1) =
        ((fetchWithRetry attempt (k + 1) retries).1,
          2000 + (fetchWithRetry attempt (k + 1) retries).2)) ∧
    (attempt k = .error e → isRateLimit e = false →
      fetchWithRetry attempt k retries = (.error e, 0)) ∧
    ((∀ i, i ≤ retries →
        ∃ ei, attempt (k + i) = .error ei ∧ isRateLimit ei = true) →
      ∃ elast, attempt (k + retries) = .error elast ∧
        fetchWithRetry attempt k retries = (.error elast, 2000 * retries)) := by
  refine ⟨?_, ?_, fetchWithRetry_all429 attempt retries k⟩
  · intro he h429
    simp [fetchWithRetry, he, h429]
  · intro he h429
    cases retries with
    | zero => simp [fetchWithRetry, he]
    | succ r => simp [fetchWithRetry, he, h429]

/-- An external world that throws HTTP 429 on every attempt. -/
def attemptAlways429 : Nat → Except FetchError Response :=
  fun _ => .error (.axiosHttp 429)

/-- An external world that throws a response-less axios (network) error on
every attempt. -/
def attemptAlwaysNetworkError : Nat → Except FetchError Response :=
  fun _ => .error .axiosNoResponse

theorem c3_fetch_with_retry_behaviour_witness :
    fetchWithRetry attemptAlways429 0 2 =
        (Except.error (FetchError.axiosHttp 429), 4000) ∧
    fetchWithRetry attemptAlwaysNetworkError 0 MAX_RETRIES =
        (Except.error FetchError.axiosNoResponse, 0) := by
  constructor
  · obtain ⟨-, -, h3⟩ :=
      c3_fetch_with_retry_behaviour attemptAlways429 0 2 (FetchError.axiosHttp 429)
    obtain ⟨el, hel, hres⟩ := h3 (fun i _ => ⟨FetchError.axiosHttp 429, rfl, rfl⟩)
    have hel' : el = FetchError.axiosHttp 429 := by
      simpa [attemptAlways429] using hel.symm
    rw [hel'] at hres
    simpa using hres
  · obtain ⟨-, h2, -⟩ :=
      c3_fetch_with_retry_behaviour attemptAlwaysNetworkError 0 MAX_RETRIES
        FetchError.axiosNoResponse
    exact h2 rfl rfl

/-! ### Candidate records and validation (src/lib/scraper.ts)

`Partial<Startup>` fields are optional strings; JavaScript treats the empty
string as falsy, which matters for the `||` defaulting chains. -/

structure Candidate where
  name : Option String
  website : Option String
  linkedin_url : Option String
  source : Option String
deriving Repr, DecidableEq

/-- JavaScript `a || b` for an optional string `a`: the default is used when
the field is absent or the empty string (both falsy). -/
def jsOr (o : Option String) (d : String) : String :=
  match o with
  | none => d
  | some s => if s = "" then d else s

/-- JavaScript `toLowerCase`, modelled characterwise. -/
def strLower (s : String) : String :=
  String.mk (s.data.map Char.toLower)

/-- JavaScript `trim`: strip whitespace from both ends of the string. -/
def jsTrim (s : String) : String :=
  String.mk
    (((s.data.dropWhile Char.isWhitespace).reverse.dropWhile
      Char.isWhitespace).reverse)

/-- validateCompany: `if (!company.name || company.name.trim().length < 2)
return false; return true`. -/
def validateCompany (c : Candidate) : Bool :=
  match c.name with
  | none => false
  | some n => if n = "" ∨ (jsTrim n).length < 2 then false else true

/-! ### Portfolio-page scraper scrapeA16z (src/lib/scraper.ts)

A matched DOM element is abstracted to the three name sources the extraction
chain reads: the `data-name` attribute, the text of `.builder-title span`,
and the text of the first heading.  The document is abstracted to the
function from a selector to its list of matched elements
(`$(selector).toArray()`). -/

structure A16zElem where
  dataName : Option String
  builderTitle : String
  headingText : String
deriving Repr, DecidableEq

/-- JavaScript `a || b || c` on strings: first non-empty wins. -/
def firstTruthy : List String → String
  | [] => ""
  | s :: rest => if s = "" then firstTruthy rest else s

/-- The name-extraction fallback chain:
`element.attr("data-name") || element.find(".builder-title span").text().trim()
|| element.find("h1,h2,h3,h4,h5,h6").first().text().trim()`. -/
def extractRawName (e : A16zElem) : String :=
  firstTruthy [e.dataName.getD "", jsTrim e.builderTitle, jsTrim e.headingText]

/-- Case-insensitive match of `pat` against the front of `s`. -/
def charsMatchCaseless (pat s : List Char) : Bool :=
  (s.take pat.length).map Char.toLower == pat.map Char.toLower

/-- Removal of the leftmost case-insensitive occurrence of any of the given
alternatives, with the earlier alternative preferred at equal positions:
the regex replace `s.replace(/IPO:|Acquired By:/i, "")`. -/
def removeFirstCaseless (pats : List (List Char)) : List Char → List Char
  | [] => []
  | c :: rest =>
    match pats.find? (fun p => charsMatchCaseless p (c :: rest)) with
    | some p => (c :: rest).drop p.length
    | none => c :: removeFirstCaseless pats rest

/-- Name cleanup: `name.replace(/IPO:|Acquired By:/i, "").trim()`. -/
def cleanName (s : String) : String :=
  jsTrim
    (String.mk (removeFirstCaseless ["IPO:".toList, "Acquired By:".toList] s.toList))

/-- The per-run accumulator of scrapeA16z: the `startups` array and the
`processedNames` set of seen lowercase names (modelled as the list of its
insertions, in order). -/
structure ScrapeState where
  startups : List Candidate
  processedNames : List String
deriving Repr, DecidableEq

/-- Processing of one matched element: extract a name, clean it, skip it if
its lowercase form was already processed, otherwise build the record
(website fixed to "not found", LinkedIn URL from the best-effort lookup,
which returns "" on failure and never throws), and keep it only if it
validates, in which case its lowercase name is marked processed. -/
def processA16zItem (lookupLinkedIn : String → String) (st : ScrapeState)
    (e : A16zElem) : ScrapeState :=
  let rawName := extractRawName e
  if rawName = "" then st
  else
    let name := cleanName rawName
    if st.processedNames.contains (strLower name) then st
    else
      let companyData : Candidate :=
        { name := some name, website := some "not found",
          linkedin_url := some (lookupLinkedIn name), source := some "a16z" }
      if validateCompany companyData then
        { startups := st.startups ++ [companyData],
          processedNames := st.processedNames ++ [strLower name] }
      else st

/-- The ordered selector candidates tried against the parsed document. -/
def a16zSelectors : List String :=
  [".company-grid-item", ".builder", "[data-v-7c2c5638].builder",
   "[data-filter-by]", "[data-name]", ".portfolio-company",
   ".portfolio-grid > div"]

/-- The selector loop: for each selector in order, query the document; when
the selector matches at least one element, process all its elements; stop
trying further selectors once the accumulated `startups` list is nonempty. -/
def a16zSelectorLoop (lookupLinkedIn : String → String)
    (querySel : String → List A16zElem) :
    List String → ScrapeState → ScrapeState
  | [], st => st
  | sel :: rest, st =>
    let items := querySel sel
    if items.length > 0 then
      let st' := items.foldl (processA16zItem lookupLinkedIn) st
      if st'.startups.length > 0 then st'
      else a16zSelectorLoop lookupLinkedIn querySel rest st'
    else a16zSelectorLoop lookupLinkedIn querySel rest st

/-- scrapeA16z: fetch the single portfolio URL (a fetch failure is caught,
logged, and—there being no further URL—yields the empty result), parse it,
and run the selector loop from the empty per-run state. -/
def scrapeA16z (fetchPortfolio : Except FetchError String)
    (parse : String → String → List A16zElem)
    (lookupLinkedIn : String → String) : List Candidate :=
  match fetchPortfolio with
  | .error _ => []
  | .ok html =>
    (a16zSelectorLoop lookupLinkedIn (parse html) a16zSelectors ⟨[], []⟩).startups

/-- A matched element whose extracted name is one character long, so the
record built from it fails validation and is not accepted. -/
def elemShortName : A16zElem :=
  ⟨some "a", "", ""⟩

/-- A matched element whose extracted name validates. -/
def elemGoodName : A16zElem :=
  ⟨some "Good", "", ""⟩

/-- A parsed document in which selector "s1" matches one element (yielding
no accepted record) and selector "s2" matches a productive element. -/
def docC4 : String → List A16zElem :=
  fun sel =>
    if sel = "s1" then [elemShortName]
    else if sel = "s2" then [elemGoodName]
    else []

/-- C4 counterexample: selector "s1" is the first selector and matches one
element, yet the later selector "s2" is still tried, because the element
matched by "s1" produces no accepted record: the run over ["s1", "s2"]
returns the record extracted from the element matched by "s2", while the run
over ["s1"] alone returns nothing. -/
theorem c4_counterexample_matching_selector_not_last
    : (docC4 "s1").length = 1 ∧
      (a16zSelectorLoop (fun _ => "") docC4 ["s1", "s2"] ⟨[], []⟩).startups =
        [⟨some "Good", some "not found", some "", some "a16z"⟩] ∧
      (a16zSelectorLoop (fun _ => "") docC4 ["s1"] ⟨[], []⟩).startups = [] := by
  refine ⟨rfl, ?_, ?_⟩ <;> decide

/-- C4 amended: selectors matching zero elements are skipped; the first
selector that matches at least one element has all its elements processed,
and, provided that processing leaves the accumulated startups list nonempty
(at least one element yielded an accepted record), no later selector is
tried — the loop's result is exactly the fold of that selector's elements
and is independent of the remaining selectors. -/
theorem c4_first_productive_selector_wins
    (lookupLinkedIn : String → String) (querySel : String → List A16zElem)
    (pre : List String) (sel : String) (rest : List String) (st : ScrapeState)
    (hpre : ∀ s ∈ pre, querySel s = [])
    (hmatch : 0 < (querySel sel).length)
    (haccept :
      0 < ((querySel sel).foldl (processA16zItem lookupLinkedIn) st).startups.length) :
    a16zSelectorLoop lookupLinkedIn querySel (pre ++ sel :: rest) st =
      (querySel sel).foldl (processA16zItem lookupLinkedIn) st := by
  induction pre with
  | nil =>
    simp only [List.nil_append, a16zSelectorLoop]
    rw [if_pos hmatch, if_pos haccept]
  | cons p ps ih =>
    have hp : querySel p = [] := hpre p (List.mem_cons_self p ps)
    simp only [List.cons_append, a16zSelectorLoop, hp, List.length_nil,
      Nat.lt_irrefl, if_false]
    exact ih (fun s hs => hpre s (List.mem_cons_of_mem p hs))

/-- A named element with the name in the `data-name` attribute. -/
def elemNamed (n : String) : A16zElem :=
  ⟨some n, "", ""⟩

/-- The document of the spec's scenario: the first two selector candidates
"sa" and "sb" match zero elements, "sc" matches five, and a later selector
"sd" would match a further element. -/
def docScenario : String → List A16zElem :=
  fun sel =>
    if sel = "sc" then
      [elemNamed "Alpha", elemNamed "Beta", elemNamed "Gamma",
       elemNamed "Delta", elemNamed "Epsilon"]
    else if sel = "sd" then [elemNamed "Zeta"]
    else []

theorem c4_first_productive_selector_wins_witness :
    (docScenario "sa").length = 0 ∧ (docScenario "sb").length = 0 ∧
    (docScenario "sc").length = 5 ∧
    (a16zSelectorLoop (fun _ => "") docScenario ["sa", "sb", "sc", "sd"]
        ⟨[], []⟩).startups.map (fun c => jsOr c.name "") =
      ["Alpha", "Beta", "Gamma", "Delta", "Epsilon"] := by
  refine ⟨rfl, rfl, rfl, ?_⟩
  have h := c4_first_productive_selector_wins (fun _ => "") docScenario
      ["sa", "sb"] "sc" ["sd"] ⟨[], []⟩ (by decide) (by decide) (by decide)
  rw [show (["sa", "sb"] ++ "sc" :: ["sd"] : List String) =
      ["sa", "sb", "sc", "sd"] from rfl] at h
  rw [h]
  decide

/-! ### Directory scraper scrapeYCombinator (src/lib/scraper.ts)

A company entry of the JSON directory response is abstracted to its `name`
and `website` fields.  The outcome of the i-th `fetchWithRetry` call of a
cohort loop is supplied by an oracle from the fetch index: either a thrown
error (caught by the inner catch, which increments `consecutiveErrors`) or a
response carrying the parsed `companies` list and the truthiness of
`response.data.next || response.data.nextPage`.  The outcome of the
per-company `getLinkedInUrl` processing is supplied by a lookup oracle whose
error case stands for an exception thrown inside the per-company try block
(caught by the per-company catch, which increments `consecutiveErrors`). -/

structure YCCompany where
  name : Option String
  website : Option String
deriving Repr, DecidableEq

inductive PageFetch
  | fetchError
  | ok (companies : List YCCompany) (next : Bool)
deriving Repr, DecidableEq

/-- The mutable context visible to the per-company for-loop: the accumulated
`startups`, the `processedNames` seen-set (as the list of its insertions),
and the `consecutiveErrors` counter. -/
structure YCState where
  startups : List Candidate
  seen : List String
  consecutiveErrors : Nat
deriving Repr, DecidableEq

/-- One iteration of the per-company for-loop: skip companies with a falsy
name or an already-seen lowercase name; otherwise look up the LinkedIn URL
(a thrown exception is caught and bumps `consecutiveErrors`), build the
candidate with `||`-defaulted website and LinkedIn fields, and keep it only
if it validates, marking its lowercase name seen. -/
def processYCCompany (batch : String) (lookupLinkedIn : String → Except Unit String)
    (st : YCState) (c : YCCompany) : YCState :=
  match c.name with
  | none => st
  | some n =>
    if n = "" then st
    else if st.seen.contains (strLower n) then st
    else
      match lookupLinkedIn n with
      | .error _ => { st with consecutiveErrors := st.consecutiveErrors + 1 }
      | .ok url =>
        let startup : Candidate :=
          { name := some n, website := some (jsOr c.website "not found"),
            linkedin_url := some (jsOr (some url) "not found"),
            source := some ("YC " ++ batch) }
        if validateCompany startup then
          { st with
            startups := st.startups ++ [startup],
            seen := st.seen ++ [strLower n] }
        else st

/-- The per-cohort loop state: `page`, `hasMore`, `consecutiveErrors`, plus
the run-wide `startups` and seen-names accumulators. -/
structure YCCohortState where
  page : Nat
  hasMore : Bool
  consecutiveErrors : Nat
  startups : List Candidate
  seen : List String
deriving Repr, DecidableEq

def MAX_CONSECUTIVE_ERRORS : Nat := 3

/-- One iteration of the cohort while-loop body, given the outcome of this
iteration's page fetch.  A thrown fetch error is caught and increments
`consecutiveErrors` (the page index is unchanged, so the same page is
retried).  An empty company list sets `hasMore = false` and breaks out.
Otherwise the page's companies are processed in order, after which
`consecutiveErrors` is reset to 0, the page index advances, and `hasMore`
takes the response's pagination indicator. -/
def ycStep (batch : String) (lookupLinkedIn : String → Except Unit String)
    (resp : PageFetch) (s : YCCohortState) : YCCohortState :=
  match resp with
  | .fetchError => { s with consecutiveErrors := s.consecutiveErrors + 1 }
  | .ok companies next =>
    if companies.length = 0 then { s with hasMore := false }
    else
      let t := companies.foldl (processYCCompany batch lookupLinkedIn)
        ⟨s.startups, s.seen, s.consecutiveErrors⟩
      { page := s.page + 1, hasMore := next, consecutiveErrors := 0,
        startups := t.startups, seen := t.seen }

/-- The cohort while-loop, `while (hasMore && consecutiveErrors <
MAX_CONSECUTIVE_ERRORS)`, with explicit fuel (the loop is not structurally
terminating: a fetch error retries the same page).  `i` counts the
`fetchWithRetry` calls made so far in this cohort and indexes the oracle. -/
def ycLoop (batch : String) (lookupLinkedIn : String → Except Unit String)
    (fetches : Nat → PageFetch) : Nat → Nat → YCCohortState → YCCohortState
  | 0, _, s => s
  | fuel + 1, i, s =>
    if s.hasMore = true ∧ s.consecutiveErrors < MAX_CONSECUTIVE_ERRORS then
      ycLoop batch lookupLinkedIn fetches fuel (i + 1)
        (ycStep batch lookupLinkedIn (fetches i) s)
    else s

def YC_BATCHES : List String := ["W24"]

/-- scrapeYCombinator: the `startups` and `processedNames` accumulators are
shared across the batches of `YC_BATCHES`; each batch runs the cohort loop
from `page = 0`, `hasMore = true`, `consecutiveErrors = 0`.  The oracle
`fetches` gives each batch its own fetch-outcome sequence. -/
def scrapeYCombinator (lookupLinkedIn : String → Except Unit String)
    (fetches : String → Nat → PageFetch) (fuel : Nat) : List Candidate :=
  (YC_BATCHES.foldl
    (fun acc batch =>
      let final := ycLoop batch lookupLinkedIn (fetches batch) fuel 0
        ⟨0, true, 0, acc.1, acc.2⟩
      (final.startups, final.seen))
    ([], [])).1

/-- The loop makes no further iteration once its condition fails. -/
theorem ycLoop_exit (batch : String) (lookupLinkedIn : String → Except Unit String)
    (fetches : Nat → PageFetch) :
    ∀ (fuel i : Nat) (s : YCCohortState),
      ¬(s.hasMore = true ∧ s.consecutiveErrors < MAX_CONSECUTIVE_ERRORS) →
      ycLoop batch lookupLinkedIn fetches fuel i s = s
  | 0, _, _, _ => rfl
  | fuel + 1, i, s, h => by simp [ycLoop, h]

theorem ycLoop_succ (batch : String) (lookupLinkedIn : String → Except Unit String)
    (fetches : Nat → PageFetch) (fuel i : Nat) (s : YCCohortState) :
    ycLoop batch lookupLinkedIn fetches (fuel + 1) i s =
      if s.hasMore = true ∧ s.consecutiveErrors < MAX_CONSECUTIVE_ERRORS then
        ycLoop batch lookupLinkedIn fetches fuel (i + 1)
          (ycStep batch lookupLinkedIn (fetches i) s)
      else s := rfl

theorem ycStep_ok_nonempty (batch : String)
    (lookupLinkedIn : String → Except Unit String)
    (companies : List YCCompany) (next : Bool) (s : YCCohortState)
    (h : companies ≠ []) :
    ycStep batch lookupLinkedIn (PageFetch.ok companies next) s =
      { page := s.page + 1, hasMore := next, consecutiveErrors := 0,
        startups := (companies.foldl (processYCCompany batch lookupLinkedIn)
          ⟨s.startups, s.seen, s.consecutiveErrors⟩).startups,
        seen := (companies.foldl (processYCCompany batch lookupLinkedIn)
          ⟨s.startups, s.seen, s.consecutiveErrors⟩).seen } := by
  simp only [ycStep]
  rw [if_neg (by simpa [List.length_eq_zero] using h)]

theorem ycStep_ok_empty (batch : String)
    (lookupLinkedIn : String → Except Unit String) (next : Bool)
    (s : YCCohortState) :
    ycStep batch lookupLinkedIn (PageFetch.ok [] next) s =
      { s with hasMore := false } := rfl

theorem ycStep_fetchError (batch : String)
    (lookupLinkedIn : String → Except Unit String) (s : YCCohortState) :
    ycStep batch lookupLinkedIn PageFetch.fetchError s =
      { s with consecutiveErrors := s.consecutiveErrors + 1 } := rfl

/-- C5: when a fetched page's company list is empty, the cohort loop sets
`hasMore` to false and exits as normal completion: with pages 0 and 1
nonempty (and announcing more pages) and page 2 empty, the loop returns the
records accumulated from processing the first two pages' companies in order
(valid, case-insensitively unique ones), with page index 2, `hasMore` false
and a clean error counter, independently of any later page. -/
theorem c5_yc_empty_page_normal_stop
    (batch : String) (lookupLinkedIn : String → Except Unit String)
    (fetches : Nat → PageFetch) (fuel : Nat)
    (cs0 cs1 : List YCCompany) (b : Bool)
    (startups0 : List Candidate) (seen0 : List String)
    (h0 : fetches 0 = PageFetch.ok cs0 true)
    (h1 : fetches 1 = PageFetch.ok cs1 true)
    (h2 : fetches 2 = PageFetch.ok [] b)
    (hc0 : cs0 ≠ []) (hc1 : cs1 ≠ [])
    (hfuel : 3 ≤ fuel) :
    ycLoop batch lookupLinkedIn fetches fuel 0 ⟨0, true, 0, startups0, seen0⟩ =
      ⟨2, false, 0,
        (cs1.foldl (processYCCompany batch lookupLinkedIn)
          ⟨(cs0.foldl (processYCCompany batch lookupLinkedIn)
              ⟨startups0, seen0, 0⟩).startups,
            (cs0.foldl (processYCCompany batch lookupLinkedIn)
              ⟨startups0, seen0, 0⟩).seen, 0⟩).startups,
        (cs1.foldl (processYCCompany batch lookupLinkedIn)
          ⟨(cs0.foldl (processYCCompany batch lookupLinkedIn)
              ⟨startups0, seen0, 0⟩).startups,
            (cs0.foldl (processYCCompany batch lookupLinkedIn)
              ⟨startups0, seen0, 0⟩).seen, 0⟩).seen⟩ := by
  obtain ⟨k, rfl⟩ : ∃ k, fuel = k + 3 := ⟨fuel - 3, by omega⟩
  have ha : k + 3 = k + 2 + 1 := rfl
  have hb : k + 2 = k + 1 + 1 := rfl
  rw [ha, ycLoop_succ,
    if_pos ⟨rfl, show (0:Nat) < MAX_CONSECUTIVE_ERRORS by decide⟩, h0,
    ycStep_ok_nonempty batch lookupLinkedIn cs0 true _ hc0]
  rw [hb, ycLoop_succ,
    if_pos ⟨rfl, show (0:Nat) < MAX_CONSECUTIVE_ERRORS by decide⟩, h1,
    ycStep_ok_nonempty batch lookupLinkedIn cs1 true _ hc1]
  rw [ycLoop_succ,
    if_pos ⟨rfl, show (0:Nat) < MAX_CONSECUTIVE_ERRORS by decide⟩, h2,
    ycStep_ok_empty]
  rw [ycLoop_exit _ _ _ _ _ _ (fun hc => Bool.false_ne_true hc.1)]

/-- The pages of the spec's 100-100-0 scenario. -/
def ycPage (tag : String) : List YCCompany :=
  (List.range 100).map (fun j => ⟨some (tag ++ String.mk (Nat.toDigits 10 j)), none⟩)

/-- A directory API returning pages of 100, 100 and 0 companies. -/
def fetchesScenario : Nat → PageFetch :=
  fun i =>
    if i = 0 then PageFetch.ok (ycPage "A") true
    else if i = 1 then PageFetch.ok (ycPage "B") true
    else PageFetch.ok [] false

theorem c5_yc_empty_page_normal_stop_witness :
    ycLoop "W24" (fun _ => Except.ok "") fetchesScenario 3 0
        ⟨0, true, 0, [], []⟩ =
      ⟨2, false, 0,
        ((ycPage "B").foldl (processYCCompany "W24" (fun _ => Except.ok ""))
          ⟨((ycPage "A").foldl (processYCCompany "W24" (fun _ => Except.ok ""))
              ⟨[], [], 0⟩).startups,
            ((ycPage "A").foldl (processYCCompany "W24" (fun _ => Except.ok ""))
              ⟨[], [], 0⟩).seen, 0⟩).startups,
        ((ycPage "B").foldl (processYCCompany "W24" (fun _ => Except.ok ""))
          ⟨((ycPage "A").foldl (processYCCompany "W24" (fun _ => Except.ok ""))
              ⟨[], [], 0⟩).startups,
            ((ycPage "A").foldl (processYCCompany "W24" (fun _ => Except.ok ""))
              ⟨[], [], 0⟩).seen, 0⟩).seen⟩ :=
  c5_yc_empty_page_normal_stop "W24" (fun _ => Except.ok "") fetchesScenario 3
    (ycPage "A") (ycPage "B") false [] [] rfl rfl rfl (by decide) (by decide)
    (by decide)

/-- C6: the cohort loop ends when either `hasMore` is false or
`consecutiveErrors` has reached `MAX_CONSECUTIVE_ERRORS = 3`; and after
three consecutive page-fetch errors the cohort is abandoned with whatever
records were accumulated before the failures — the loop returns its state
unchanged except for the error counter, and no error propagates (the run
returns normally rather than throwing). -/
theorem c6_three_fetch_errors_abandon_cohort
    (batch : String) (lookupLinkedIn : String → Except Unit String)
    (fetches : Nat → PageFetch) :
    (∀ (fuel i : Nat) (s : YCCohortState),
      ¬(s.hasMore = true ∧ s.consecutiveErrors < MAX_CONSECUTIVE_ERRORS) →
      ycLoop batch lookupLinkedIn fetches fuel i s = s) ∧
    (∀ (fuel i : Nat) (s : YCCohortState),
      s.hasMore = true → s.consecutiveErrors = 0 →
      fetches i = PageFetch.fetchError →
      fetches (i + 1) = PageFetch.fetchError →
      fetches (i + 2) = PageFetch.fetchError →
      3 ≤ fuel →
      ycLoop batch lookupLinkedIn fetches fuel i s =
        { s with consecutiveErrors := 3 }) := by
  refine ⟨ycLoop_exit batch lookupLinkedIn fetches, ?_⟩
  intro fuel i s hm hcE hf0 hf1 hf2 hfuel
  obtain ⟨k, rfl⟩ : ∃ k, fuel = k + 3 := ⟨fuel - 3, by omega⟩
  have ha : k + 3 = k + 2 + 1 := rfl
  have hb : k + 2 = k + 1 + 1 := rfl
  rw [ha, ycLoop_succ, if_pos ⟨hm, by rw [hcE]; decide⟩, hf0, ycStep_fetchError]
  rw [hb, ycLoop_succ, if_pos ⟨hm, by simp only [hcE]; decide⟩, hf1,
    ycStep_fetchError]
  rw [ycLoop_succ, if_pos ⟨hm, by simp only [hcE]; decide⟩, hf2,
    ycStep_fetchError]
  rw [ycLoop_exit _ _ _ _ _ _ (fun hc => by
    have := hc.2
    simp only [hcE] at this
    exact absurd this (by decide))]
  simp [hcE]

theorem c6_three_fetch_errors_abandon_cohort_witness :
    ycLoop "W24" (fun _ => Except.ok "") (fun _ => PageFetch.fetchError) 5 0
        ⟨0, true, 0, [], []⟩ = ⟨0, true, 3, [], []⟩ := by
  have h := (c6_three_fetch_errors_abandon_cohort "W24" (fun _ => Except.ok "")
      (fun _ => PageFetch.fetchError)).2 5 0 ⟨0, true, 0, [], []⟩ rfl rfl rfl
      rfl rfl (by decide)
  simpa using h

/-- C10 counterexample: a page whose fetch succeeded but whose company list
is empty does not reset `consecutiveErrors` — the loop breaks out before the
reset line, keeping the prior error count (here 2). -/
theorem c10_counterexample_empty_page_keeps_counter :
    (ycStep "W24" (fun _ => Except.ok "") (PageFetch.ok [] true)
        ⟨1, true, 2, [], []⟩).consecutiveErrors ≠ 0 := by
  decide

/-- C10 amended: at the end of every successfully fetched page with a
nonempty company list, `consecutiveErrors` is reset to 0 regardless of how
many per-company processing errors incremented it during the page; a
successfully fetched empty page instead exits the loop with the counter
untouched; and if no page fetch ever throws, the error counter is 0 at
every loop exit, so per-company processing errors can never by themselves
terminate the cohort loop — abandonment requires page-level fetch
failures. -/
theorem c10_reset_after_nonempty_success
    (batch : String) (lookupLinkedIn : String → Except Unit String)
    (fetches : Nat → PageFetch) :
    (∀ (companies : List YCCompany) (next : Bool) (s : YCCohortState),
      companies ≠ [] →
      (ycStep batch lookupLinkedIn (PageFetch.ok companies next)
        s).consecutiveErrors = 0) ∧
    (∀ (next : Bool) (s : YCCohortState),
      ycStep batch lookupLinkedIn (PageFetch.ok [] next) s =
        { s with hasMore := false }) ∧
    ((∀ j, fetches j ≠ PageFetch.fetchError) →
      ∀ (fuel i : Nat) (s : YCCohortState), s.consecutiveErrors = 0 →
      (ycLoop batch lookupLinkedIn fetches fuel i s).consecutiveErrors = 0) := by
  refine ⟨?_, ?_, ?_⟩
  · intro companies next s h
    rw [ycStep_ok_nonempty batch lookupLinkedIn companies next s h]
  · intro next s
    exact ycStep_ok_empty batch lookupLinkedIn next s
  · intro hnf fuel
    induction fuel with
    | zero => intro i s h0; exact h0
    | succ f ih =>
      intro i s h0
      rw [ycLoop_succ]
      by_cases hc : s.hasMore = true ∧
          s.consecutiveErrors < MAX_CONSECUTIVE_ERRORS
      · rw [if_pos hc]
        apply ih
        cases hfi : fetches i with
        | fetchError => exact absurd hfi (hnf i)
        | ok companies next =>
          cases companies with
          | nil => simpa [ycStep_ok_empty] using h0
          | cons c cs =>
            exact (ycStep_ok_nonempty batch lookupLinkedIn (c :: cs) next s
              (by simp)) ▸ rfl
      · rw [if_neg hc]
        exact h0

theorem c10_reset_after_nonempty_success_witness :
    (ycStep "W24" (fun _ => Except.error ())
        (PageFetch.ok [⟨some "Zeta", none⟩] true)
        ⟨0, true, 0, [], []⟩).consecutiveErrors = 0 ∧
    (ycLoop "W24" (fun _ => Except.error ())
        (fun _ => PageFetch.ok [⟨some "Zeta", none⟩] true) 4 0
        ⟨0, true, 0, [], []⟩).consecutiveErrors = 0 := by
  constructor
  · exact (c10_reset_after_nonempty_success "W24" (fun _ => Except.error ())
      (fun _ => PageFetch.ok [⟨some "Zeta", none⟩] true)).1
      [⟨some "Zeta", none⟩] true ⟨0, true, 0, [], []⟩ (by decide)
  · exact (c10_reset_after_nonempty_success "W24" (fun _ => Except.error ())
      (fun _ => PageFetch.ok [⟨some "Zeta", none⟩] true)).2.2
      (fun j h => PageFetch.noConfusion h) 4 0 ⟨0, true, 0, [], []⟩ rfl

/-! ### Aggregator scrapeStartups and the per-run dedup invariant -/

/-- scrapeStartups: await both scrapers (concurrently) and return the
concatenation of the portfolio scraper's output with the directory
scraper's output. -/
def scrapeStartups (fetchPortfolio : Except FetchError String)
    (parse : String → String → List A16zElem) (lookupA16z : String → String)
    (lookupYC : String → Except Unit String)
    (fetchesYC : String → Nat → PageFetch) (fuel : Nat) : List Candidate :=
  scrapeA16z fetchPortfolio parse lookupA16z ++
    scrapeYCombinator lookupYC fetchesYC fuel

/-- The case-insensitive name keys of a record list. -/
def lowerNames (l : List Candidate) : List String :=
  l.map (fun c => strLower (c.name.getD ""))

theorem nodup_append_singleton {l : List String} {x : String}
    (hnd : l.Nodup) (hx : x ∉ l) : (l ++ [x]).Nodup := by
  simp [List.nodup_append, hnd, hx]

theorem mem_of_contains {l : List String} {x : String}
    (h : l.contains x = true) : x ∈ l := by
  simpa using h

theorem contains_of_mem {l : List String} {x : String}
    (h : x ∈ l) : l.contains x = true := by
  simpa using h

theorem processA16zItem_inv (lookup : String → String) (st : ScrapeState)
    (e : A16zElem) (h : lowerNames st.startups = st.processedNames) :
    lowerNames (processA16zItem lookup st e).startups =
      (processA16zItem lookup st e).processedNames := by
  simp only [processA16zItem]
  split_ifs with h1 h2 h3
  · exact h
  · exact h
  · simp only [lowerNames] at h ⊢
    simp [h]
  · exact h

theorem processA16zItem_nodup (lookup : String → String) (st : ScrapeState)
    (e : A16zElem) (hnd : st.processedNames.Nodup) :
    (processA16zItem lookup st e).processedNames.Nodup := by
  simp only [processA16zItem]
  split_ifs with h1 h2 h3
  · exact hnd
  · exact hnd
  · exact nodup_append_singleton hnd (fun hm => h2 (contains_of_mem hm))
  · exact hnd

theorem a16z_foldl_inv (lookup : String → String) (es : List A16zElem) :
    ∀ st : ScrapeState, lowerNames st.startups = st.processedNames →
      st.processedNames.Nodup →
      lowerNames ((es.foldl (processA16zItem lookup) st)).startups =
          (es.foldl (processA16zItem lookup) st).processedNames ∧
        (es.foldl (processA16zItem lookup) st).processedNames.Nodup := by
  induction es with
  | nil => intro st h hnd; exact ⟨h, hnd⟩
  | cons e rest ih =>
    intro st h hnd
    exact ih _ (processA16zItem_inv lookup st e h)
      (processA16zItem_nodup lookup st e hnd)

theorem a16zSelectorLoop_inv (lookup : String → String)
    (querySel : String → List A16zElem) :
    ∀ (sels : List String) (st : ScrapeState),
      lowerNames st.startups = st.processedNames → st.processedNames.Nodup →
      lowerNames (a16zSelectorLoop lookup querySel sels st).startups =
          (a16zSelectorLoop lookup querySel sels st).processedNames ∧
        (a16zSelectorLoop lookup querySel sels st).processedNames.Nodup
  | [], st, h, hnd => ⟨h, hnd⟩
  | sel :: rest, st, h, hnd => by
    simp only [a16zSelectorLoop]
    split_ifs with h1 h2
    · exact a16z_foldl_inv lookup _ st h hnd
    · exact a16zSelectorLoop_inv lookup querySel rest _
        (a16z_foldl_inv lookup _ st h hnd).1 (a16z_foldl_inv lookup _ st h hnd).2
    · exact a16zSelectorLoop_inv lookup querySel rest st h hnd

theorem scrapeA16z_nodup (fetchPortfolio : Except FetchError String)
    (parse : String → String → List A16zElem) (lookup : String → String) :
    (lowerNames (scrapeA16z fetchPortfolio parse lookup)).Nodup := by
  cases fetchPortfolio with
  | error e => simp [scrapeA16z, lowerNames]
  | ok html =>
    have h := a16zSelectorLoop_inv lookup (parse html) a16zSelectors ⟨[], []⟩
      rfl List.nodup_nil
    simpa [scrapeA16z, h.1] using h.2

theorem processYCCompany_inv (batch : String)
    (lookup : String → Except Unit String) (st : YCState) (c : YCCompany)
    (h : lowerNames st.startups = st.seen) :
    lowerNames (processYCCompany batch lookup st c).startups =
      (processYCCompany batch lookup st c).seen := by
  obtain ⟨cn, cw⟩ := c
  cases cn with
  | none => exact h
  | some n =>
    simp only [processYCCompany]
    split_ifs with h1 h2
    · exact h
    · exact h
    · cases hl : lookup n with
      | error u => exact h
      | ok url =>
        dsimp only
        split_ifs with h3
        · simp only [lowerNames] at h ⊢
          simp [h]
        · exact h

theorem processYCCompany_nodup (batch : String)
    (lookup : String → Except Unit String) (st : YCState) (c : YCCompany)
    (hnd : st.seen.Nodup) :
    (processYCCompany batch lookup st c).seen.Nodup := by
  obtain ⟨cn, cw⟩ := c
  cases cn with
  | none => exact hnd
  | some n =>
    simp only [processYCCompany]
    split_ifs with h1 h2
    · exact hnd
    · exact hnd
    · cases hl : lookup n with
      | error u => exact hnd
      | ok url =>
        dsimp only
        split_ifs with h3
        · exact nodup_append_singleton hnd (fun hm => h2 (contains_of_mem hm))
        · exact hnd

theorem yc_foldl_inv (batch : String) (lookup : String → Except Unit String)
    (cs : List YCCompany) :
    ∀ st : YCState, lowerNames st.startups = st.seen → st.seen.Nodup →
      lowerNames ((cs.foldl (processYCCompany batch lookup) st)).startups =
          (cs.foldl (processYCCompany batch lookup) st).seen ∧
        (cs.foldl (processYCCompany batch lookup) st).seen.Nodup := by
  induction cs with
  | nil => intro st h hnd; exact ⟨h, hnd⟩
  | cons c rest ih =>
    intro st h hnd
    exact ih _ (processYCCompany_inv batch lookup st c h)
      (processYCCompany_nodup batch lookup st c hnd)

theorem ycStep_inv (batch : String) (lookup : String → Except Unit String)
    (resp : PageFetch) (s : YCCohortState)
    (h : lowerNames s.startups = s.seen) (hnd : s.seen.Nodup) :
    lowerNames (ycStep batch lookup resp s).startups =
        (ycStep batch lookup resp s).seen ∧
      (ycStep batch lookup resp s).seen.Nodup := by
  cases resp with
  | fetchError => exact ⟨h, hnd⟩
  | ok companies next =>
    simp only [ycStep]
    split_ifs with h1
    · exact ⟨h, hnd⟩
    · exact yc_foldl_inv batch lookup companies
        ⟨s.startups, s.seen, s.consecutiveErrors⟩ h hnd

theorem ycLoop_inv (batch : String) (lookup : String → Except Unit String)
    (fetches : Nat → PageFetch) :
    ∀ (fuel i : Nat) (s : YCCohortState),
      lowerNames s.startups = s.seen → s.seen.Nodup →
      lowerNames (ycLoop batch lookup fetches fuel i s).startups =
          (ycLoop batch lookup fetches fuel i s).seen ∧
        (ycLoop batch lookup fetches fuel i s).seen.Nodup
  | 0, _, s, h, hnd => ⟨h, hnd⟩
  | fuel + 1, i, s, h, hnd => by
    rw [ycLoop_succ]
    split_ifs with hc
    · exact ycLoop_inv batch lookup fetches fuel (i + 1) _
        (ycStep_inv batch lookup (fetches i) s h hnd).1
        (ycStep_inv batch lookup (fetches i) s h hnd).2
    · exact ⟨h, hnd⟩

theorem scrapeYCombinator_nodup (lookup : String → Except Unit String)
    (fetches : String → Nat → PageFetch) (fuel : Nat) :
    (lowerNames (scrapeYCombinator lookup fetches fuel)).Nodup := by
  have h := ycLoop_inv "W24" lookup (fetches "W24") fuel 0 ⟨0, true, 0, [], []⟩
    rfl List.nodup_nil
  have e : scrapeYCombinator lookup fetches fuel =
      (ycLoop "W24" lookup (fetches "W24") fuel 0 ⟨0, true, 0, [], []⟩).startups :=
    rfl
  rw [e, h.1]
  exact h.2

/-- A parsed portfolio document whose first selector matches one element
named "Acme". -/
def worldC2Doc : String → String → List A16zElem :=
  fun _ sel => if sel = ".company-grid-item" then [elemNamed "Acme"] else []

/-- A directory API whose first page holds one company named "ACME". -/
def worldC2Fetches : String → Nat → PageFetch :=
  fun _ i =>
    if i = 0 then PageFetch.ok [⟨some "ACME", none⟩] false
    else PageFetch.ok [] false

/-- C2 counterexample: the two scrapers deduplicate against separate
per-scraper seen-sets, so the list returned by scrapeStartups can contain
two records sharing a case-insensitive name — here "Acme" from the
portfolio scraper and "ACME" from the directory scraper. -/
theorem c2_counterexample_cross_scraper_duplicate :
    lowerNames (scrapeStartups (Except.ok "html") worldC2Doc (fun _ => "")
        (fun _ => Except.ok "") worldC2Fetches 2) = ["acme", "acme"] ∧
    ¬ (lowerNames (scrapeStartups (Except.ok "html") worldC2Doc (fun _ => "")
        (fun _ => Except.ok "") worldC2Fetches 2)).Nodup := by
  exact ⟨by decide, by decide⟩

/-- C2 amended: within each scraper's output no two records share a
case-insensitive name, and a candidate whose case-insensitive name is
already in that scraper's seen-set leaves the scraper's state unchanged
(the first-encountered occurrence is kept, later ones are dropped); but
each scraper deduplicates only against its own per-run seen-set, so the
concatenation returned by scrapeStartups may contain records from
different scrapers sharing a case-insensitive name. -/
theorem c2_dedup_per_scraper
    (fetchPortfolio : Except FetchError String)
    (parse : String → String → List A16zElem) (lookupA16z : String → String)
    (lookupYC : String → Except Unit String)
    (fetchesYC : String → Nat → PageFetch) (fuel : Nat) :
    (lowerNames (scrapeA16z fetchPortfolio parse lookupA16z)).Nodup ∧
    (lowerNames (scrapeYCombinator lookupYC fetchesYC fuel)).Nodup ∧
    (∀ (lookup : String → String) (st : ScrapeState) (e : A16zElem),
      st.processedNames.contains (strLower (cleanName (extractRawName e))) =
        true →
      processA16zItem lookup st e = st) ∧
    (∀ (batch : String) (lookup : String → Except Unit String) (st : YCState)
        (c : YCCompany) (n : String), c.name = some n →
      st.seen.contains (strLower n) = true →
      processYCCompany batch lookup st c = st) := by
  refine ⟨scrapeA16z_nodup _ _ _, scrapeYCombinator_nodup _ _ _, ?_, ?_⟩
  · intro lookup st e hc
    simp only [processA16zItem]
    split_ifs <;> rfl
  · intro batch lookup st c n hn hc
    simp only [processYCCompany, hn]
    split_ifs <;> rfl

theorem c2_dedup_per_scraper_witness :
    processA16zItem (fun _ => "")
        ⟨[⟨some "Acme", some "not found", some "", some "a16z"⟩], ["acme"]⟩
        (elemNamed "ACME") =
      ⟨[⟨some "Acme", some "not found", some "", some "a16z"⟩], ["acme"]⟩ ∧
    processYCCompany "W24" (fun _ => Except.ok "")
        ⟨[], ["acme"], 0⟩ ⟨some "ACME", none⟩ = ⟨[], ["acme"], 0⟩ := by
  obtain ⟨-, -, h3, h4⟩ := c2_dedup_per_scraper (Except.ok "html") worldC2Doc
      (fun _ => "") (fun _ => Except.ok "") worldC2Fetches 2
  exact ⟨h3 (fun _ => "") _ (elemNamed "ACME") (by decide),
    h4 "W24" (fun _ => Except.ok "") _ ⟨some "ACME", none⟩ "ACME" rfl
      (by decide)⟩

/-! ### Ingestion endpoint GET /api/scrape (src/app/api/scrape/route.ts)

The Supabase table is modelled as the list of its rows.  The batch upsert
with `onConflict: "name", ignoreDuplicates: true` inserts each row in order
unless a row with the same `name` is already present — whether pre-existing
or inserted earlier in the same batch — in which case the row is skipped.
The ISO timestamp is abstracted to a number. -/

structure DBRow where
  name : String
  website : String
  linkedin_url : String
  created_at : Nat
deriving Repr, DecidableEq

/-- Insert-or-ignore of a single row, keyed by `name`. -/
def upsertRow (store : List DBRow) (r : DBRow) : List DBRow :=
  if store.any (fun x => x.name == r.name) then store else store ++ [r]

/-- The batch upsert: rows are attempted in order. -/
def upsertAll (store : List DBRow) (rows : List DBRow) : List DBRow :=
  rows.foldl upsertRow store

/-- The normalized record built from one scraped result:
`name: startup.name || "Unknown"`, `website: startup.website || "not
found"`, `linkedin_url: startup.linkedin_url || "not found"`,
`created_at: new Date().toISOString()`. -/
def toRow (now : Nat) (c : Candidate) : DBRow :=
  { name := jsOr c.name "Unknown", website := jsOr c.website "not found",
    linkedin_url := jsOr c.linkedin_url "not found", created_at := now }

/-- The JSON body of the endpoint's 200 response. -/
structure ScrapeResponse where
  success : Bool
  newCount : Nat
  totalCount : Nat
  message : String
deriving Repr, DecidableEq

/-- The GET handler on its success path: if any results were scraped,
upsert their normalized rows (ignoring name conflicts); then query the
total row count and answer with the counts and the status message. -/
def apiGET (now : Nat) (store : List DBRow) (results : List Candidate) :
    ScrapeResponse × List DBRow :=
  let newStore :=
    if 0 < results.length then upsertAll store (results.map (toRow now))
    else store
  ({ success := true, newCount := results.length,
     totalCount := newStore.length,
     message :=
       if results.length = 0 then "No new startups found"
       else "Scrape completed successfully" },
   newStore)

/-- Presence of a row with the given name. -/
def hasName (store : List DBRow) (n : String) : Bool :=
  store.any (fun x => x.name == n)

theorem hasName_upsertRow_self (store : List DBRow) (r : DBRow) :
    hasName (upsertRow store r) r.name = true := by
  unfold upsertRow hasName
  split_ifs with h
  · exact h
  · simp [List.any_append]

theorem hasName_upsertRow_mono (store : List DBRow) (r : DBRow) (n : String)
    (h : hasName store n = true) : hasName (upsertRow store r) n = true := by
  unfold upsertRow
  split_ifs with hc
  · exact h
  · unfold hasName at h ⊢
    simp [List.any_append, h]

theorem hasName_upsertAll_mono (rows : List DBRow) :
    ∀ (store : List DBRow) (n : String), hasName store n = true →
      hasName (upsertAll store rows) n = true := by
  induction rows with
  | nil => intro store n h; exact h
  | cons r rest ih =>
    intro store n h
    exact ih _ n (hasName_upsertRow_mono store r n h)

theorem hasName_upsertAll_of_mem (rows : List DBRow) :
    ∀ (store : List DBRow) (r : DBRow), r ∈ rows →
      hasName (upsertAll store rows) r.name = true := by
  induction rows with
  | nil => intro store r h; exact absurd h (List.not_mem_nil r)
  | cons q rest ih =>
    intro store r h
    rcases List.mem_cons.mp h with h1 | h2
    · subst h1
      exact hasName_upsertAll_mono rest _ _ (hasName_upsertRow_self store r)
    · exact ih _ r h2

theorem upsertRow_noop (store : List DBRow) (r : DBRow)
    (h : hasName store r.name = true) : upsertRow store r = store := by
  have h' : (store.any fun x => x.name == r.name) = true := h
  unfold upsertRow
  rw [if_pos h']

theorem upsertAll_noop (rows : List DBRow) :
    ∀ store : List DBRow, (∀ r ∈ rows, hasName store r.name = true) →
      upsertAll store rows = store := by
  induction rows with
  | nil => intro store h; rfl
  | cons q rest ih =>
    intro store h
    have hq := upsertRow_noop store q (h q (List.mem_cons_self q rest))
    have e : upsertAll store (q :: rest) = upsertAll (upsertRow store q) rest :=
      rfl
    rw [e, hq]
    exact ih store (fun r hr => h r (List.mem_cons_of_mem q hr))

/-- C7: running the ingestion twice with identical scraped results yields
the same totalCount both times — the second upsert only attempts rows whose
names are already present, which the conflict-ignoring upsert skips, so the
stored row count does not change. -/
theorem c7_ingestion_idempotent_total_count
    (store : List DBRow) (results : List Candidate) (t1 t2 : Nat) :
    ((apiGET t2 (apiGET t1 store results).2 results).1).totalCount =
      ((apiGET t1 store results).1).totalCount := by
  by_cases h0 : results.length = 0
  · have : results = [] := List.length_eq_zero.mp h0
    subst this
    rfl
  · have hpos : 0 < results.length := Nat.pos_of_ne_zero h0
    have e2noop :
        upsertAll (upsertAll store (results.map (toRow t1)))
            (results.map (toRow t2)) =
          upsertAll store (results.map (toRow t1)) := by
      apply upsertAll_noop
      intro r hr
      obtain ⟨c, hc, rfl⟩ := List.mem_map.mp hr
      have hn : (toRow t2 c).name = (toRow t1 c).name := rfl
      rw [hn]
      exact hasName_upsertAll_of_mem _ store (toRow t1 c)
        (List.mem_map_of_mem _ hc)
    simp [apiGET, hpos, e2noop]

/-- C8: on the success path the endpoint maps each scraped result to a row
with `||`-defaulted name/website/linkedin fields and the current timestamp,
and answers with success, `newCount` equal to the number of scraped
results, `totalCount` equal to the stored row count after the upsert, and
the "No new startups found" message exactly when zero results were scraped
("Scrape completed successfully" otherwise). -/
theorem c8_ingestion_response_shape
    (now : Nat) (store : List DBRow) (results : List Candidate) :
    (apiGET now store results).1.success = true ∧
    (apiGET now store results).1.newCount = results.length ∧
    (apiGET now store results).1.totalCount =
      ((apiGET now store results).2).length ∧
    ((apiGET now store results).1.message = "No new startups found" ↔
      results.length = 0) ∧
    ((apiGET now store results).1.message = "Scrape completed successfully" ↔
      results.length ≠ 0) ∧
    (∀ c : Candidate,
      toRow now c =
        ⟨jsOr c.name "Unknown", jsOr c.website "not found",
          jsOr c.linkedin_url "not found", now⟩) := by
  have hmsg : (apiGET now store results).1.message =
      (if results.length = 0 then "No new startups found"
       else "Scrape completed successfully") := rfl
  refine ⟨rfl, rfl, rfl, ?_, ?_, fun c => rfl⟩
  · rw [hmsg]
    by_cases h0 : results.length = 0
    · simp [h0]
    · simp only [h0, if_false, iff_false]
      decide
  · rw [hmsg]
    by_cases h0 : results.length = 0
    · simp only [h0, if_true, iff_true]
      decide
    · simp [h0]

theorem c8_ingestion_response_shape_witness :
    (apiGET 7 [] []).1.message = "No new startups found" :=
  (c8_ingestion_response_shape 7 [] []).2.2.2.1.mpr rfl

end StartupsTracker
